import Mathlib

/-!
Verification of the NextPVR socket transport layer (Socket.cpp).

The C++ class Socket is embedded shallowly.  OS calls (socket, recv, send,
sendto, connect, bind, WSAStartup, gethostbyname, inet_addr) are modelled as
oracle parameters: a list of outcomes consumed one call at a time, or a
function from the arguments the code passes to the result the OS returns.
Machine state that the code mutates (the descriptor _sd, the peer address
_sockaddr, the process-wide counter win_usage_count) is threaded explicitly
through a record SState.  The Windows branch of the platform abstraction is
modelled, since the claims about the initialization counter concern the
platform requiring subsystem startup; the Linux branch makes osInit and
osCleanup no-ops.
-/

namespace NextPVRSocket

/-- SOCKET_ERROR sentinel used by the socket API. -/
def SOCKET_ERROR : Int := -1

/-- INVALID_SOCKET sentinel marking an unbound descriptor. -/
def INVALID_SOCKET : Int := -1

/-- The transient would-block errno (EAGAIN on POSIX, WSAEWOULDBLOCK on
Windows; the two platform branches compare against their own constant in
the same way, so a single constant models both). -/
def EAGAIN : Int := 11

/-- INADDR_ANY wildcard address used by bind. -/
def INADDR_ANY : Nat := 0

/-- The network broadcast address 255.255.255.255 as inet_addr yields it. -/
def INADDR_BROADCAST : Nat := 4294967295

/-- The sockaddr_in structure _sockaddr: the fields the code reads and
writes (sin_family, sin_port, sin_addr.s_addr). -/
structure SockAddrIn where
  sin_family : Nat
  sin_port : Nat
  sin_addr : Nat
deriving DecidableEq, Repr

/-- The all-zero peer address produced by memset in the constructors. -/
def zeroSockAddr : SockAddrIn := { sin_family := 0, sin_port := 0, sin_addr := 0 }

/-- The mutable state a Socket call can touch: the descriptor _sd, the
configuration fields, the peer address _sockaddr, the process-wide counter
win_usage_count, plus two event counters recording how many times the
process released OS resources (closesocket/close calls and WSACleanup
calls), so that resource release is observable in theorems. -/
structure SState where
  sd : Int
  family : Nat
  domain : Nat
  sockType : Nat
  protocol : Nat
  sockaddr : SockAddrIn
  usageCount : Int
  wsaCleanupCalls : Nat
  osCloseCalls : Nat
deriving DecidableEq, Repr

/-- Socket::is_valid: the descriptor differs from INVALID_SOCKET. -/
def is_valid (s : SState) : Bool := s.sd != INVALID_SOCKET

/-- htons byte swap of a 16-bit port value. -/
def htons (port : Nat) : Nat := (port % 256) * 256 + (port / 256) % 256

/-- The parameterised Socket constructor: stores the configuration, sets
_sd to INVALID_SOCKET and zeroes _sockaddr; the process-wide fields are
whatever they were before. -/
def socketCtor (family domain sockType protocol : Nat) (g : SState) : SState :=
  { g with
    sd := INVALID_SOCKET
    family := family
    domain := domain
    sockType := sockType
    protocol := protocol
    sockaddr := zeroSockAddr }

/-- Socket::osInit, Windows branch: win_usage_count is incremented first,
then WSAStartup runs (oracle startupOk) and the negotiated version is
checked (oracle versionOk); either failure returns false with the counter
already incremented. -/
def osInit (startupOk versionOk : Bool) (s : SState) : Bool × SState :=
  let s1 := { s with usageCount := s.usageCount + 1 }
  if startupOk = false then (false, s1)
  else if versionOk = false then (false, s1)
  else (true, s1)

/-- Socket::osCleanup, Windows branch: decrements win_usage_count and calls
WSACleanup exactly when the counter has reached zero. -/
def osCleanup (s : SState) : SState :=
  let s1 := { s with usageCount := s.usageCount - 1 }
  if s1.usageCount = 0 then { s1 with wsaCleanupCalls := s1.wsaCleanupCalls + 1 } else s1

/-- Socket::close: when the descriptor is valid, releases it through the
platform close call, resets _sd to INVALID_SOCKET and runs osCleanup;
otherwise does nothing and reports false. -/
def close (s : SState) : Bool × SState :=
  if is_valid s = true then
    (true, osCleanup { s with osCloseCalls := s.osCloseCalls + 1, sd := INVALID_SOCKET })
  else (false, s)

/-- Socket::create: closes any existing handle, runs osInit, then asks the
OS for a descriptor (oracle fd, the value socket() returns); stores fd into
_sd and fails when it is INVALID_SOCKET. -/
def create (startupOk versionOk : Bool) (fd : Int) (s : SState) : Bool × SState :=
  let s1 := if is_valid s = true then (close s).2 else s
  let r := osInit startupOk versionOk s1
  if r.1 = false then (false, r.2)
  else
    let s2 := { r.2 with sd := fd }
    if fd = INVALID_SOCKET then (false, s2) else (true, s2)

/-- First byte of a C string: the first byte of the list, or the NUL
terminator 0 when the string is empty (host.c_str()[0]). -/
def firstByte : List Nat → Nat
  | [] => 0
  | b :: _ => b

/-- isalpha in the C locale over a byte value. -/
def isalphaByte (b : Nat) : Bool :=
  decide (65 ≤ b ∧ b ≤ 90) || decide (97 ≤ b ∧ b ≤ 122)

/-- Socket::setHostname.  Hostnames are byte lists (the contents of the
std::string).  gethostbyname models name resolution, returning the first
resolved address or none; inet_addr models the numeric parse, a total
function applied with no validation. -/
def setHostname (gethostbyname : List Nat → Option Nat) (inet_addr : List Nat → Nat)
    (host : List Nat) (s : SState) : Bool × SState :=
  if isalphaByte (firstByte host) = true then
    match gethostbyname host with
    | none => (false, s)
    | some addr => (true, { s with sockaddr := { s.sockaddr with sin_addr := addr } })
  else
    (true, { s with sockaddr := { s.sockaddr with sin_addr := inet_addr host } })

/-- Socket::connect: requires a valid handle, writes sin_family and
sin_port into _sockaddr directly, then calls setHostname, then the OS
connect (oracle connectOS, a function of the address the code passes). -/
def connect (gethostbyname : List Nat → Option Nat) (inet_addr : List Nat → Nat)
    (host : List Nat) (port : Nat) (connectOS : SockAddrIn → Int) (s : SState) :
    Bool × SState :=
  if is_valid s = false then (false, s)
  else
    let s1 := { s with sockaddr :=
      { s.sockaddr with sin_family := s.family, sin_port := htons port } }
    match setHostname gethostbyname inet_addr host s1 with
    | (false, s2) => (false, s2)
    | (true, s2) =>
      if connectOS s2.sockaddr = SOCKET_ERROR then (false, s2) else (true, s2)

/-- Socket::reconnect: immediate success when _sd is already valid;
otherwise create() then the OS connect on the stored _sockaddr.  No
hostname resolution happens here: the function takes no resolver and the
OS connect is applied to the peer address left by the prior
connect/setHostname. -/
def reconnect (startupOk versionOk : Bool) (fd : Int) (connectOS : SockAddrIn → Int)
    (s : SState) : Bool × SState :=
  if s.sd ≠ INVALID_SOCKET then (true, s)
  else
    let r := create startupOk versionOk fd s
    if r.1 = false then (false, r.2)
    else if connectOS r.2.sockaddr = SOCKET_ERROR then (false, r.2)
    else (true, r.2)

/-- Socket::bind: requires a valid handle, writes family, wildcard address
and port into _sockaddr, then the OS bind (oracle bindOS). -/
def bind (bindOS : SockAddrIn → Int) (port : Nat) (s : SState) : Bool × SState :=
  if is_valid s = false then (false, s)
  else
    let s1 := { s with sockaddr :=
      { sin_family := s.family, sin_port := htons port, sin_addr := INADDR_ANY } }
    if bindOS s1.sockaddr = -1 then (false, s1) else (true, s1)

/-- Outcome of one OS send(2) call: SOCKET_ERROR with the errno the code
will read, or success with the count of bytes the kernel accepted. -/
inductive SendOutcome where
  | err (e : Int)
  | ok (n : Nat)
deriving DecidableEq, Repr

/-- The do-while retry loop in Socket::send: repeat the OS send while the
status is SOCKET_ERROR and errno is the would-block code.  none means the
oracle ran out while the loop was still retrying (the code would go on
retrying). -/
def sendLoop : List SendOutcome → Option Int
  | [] => none
  | SendOutcome.err e :: rest => if e = EAGAIN then sendLoop rest else some SOCKET_ERROR
  | SendOutcome.ok n :: _ => some ((n : Int))

/-- Socket::send(data, len): validity check, the zero-timeout select whose
failure invalidates the handle and returns 0 (oracle selectResult), then
the retry loop; a final SOCKET_ERROR status sets _sd to INVALID_SOCKET and
is returned raw. -/
def send (selectResult : Int) (outs : List SendOutcome) (s : SState) :
    Option Int × SState :=
  if is_valid s = false then (some 0, s)
  else if selectResult < 0 then (some 0, { s with sd := INVALID_SOCKET })
  else
    match sendLoop outs with
    | none => (none, s)
    | some status =>
      if status = SOCKET_ERROR then (some status, { s with sd := INVALID_SOCKET })
      else (some status, s)

/-- The loop of Socket::sendto: each iteration performs one OS sendto
(oracle list of return values); a non-positive result runs osCleanup and
returns it; otherwise the count accumulates into sentbytes and the loop
repeats while sentbytes < size and sendcompletebuffer holds.  none means
the oracle ran out mid-loop. -/
def sendtoLoop (size : Nat) (sendcompletebuffer : Bool) :
    List Int → Int → SState → Option Int × SState
  | [], _, s => (none, s)
  | i :: rest, sentbytes, s =>
    if i ≤ 0 then (some i, osCleanup s)
    else if sentbytes + i < (size : Int) ∧ sendcompletebuffer = true then
      sendtoLoop size sendcompletebuffer rest (sentbytes + i) s
    else (some i, s)

/-- Socket::sendto(data, size, sendcompletebuffer): the loop started with
sentbytes = 0.  Note the code performs no is_valid check here. -/
def sendto (size : Nat) (sendcompletebuffer : Bool) (outs : List Int) (s : SState) :
    Option Int × SState :=
  sendtoLoop size sendcompletebuffer outs 0 s

/-- Socket::BroadcastSendTo: stores family, port and the broadcast address
into _sockaddr, then calls sendto.  The sendcompletebuffer flag comes from
the default argument in the header (not present under src/), so it is kept
as a parameter. -/
def BroadcastSendTo (sendcompletebuffer : Bool) (port : Nat) (len : Nat)
    (outs : List Int) (s : SState) : Option Int × SState :=
  let s1 := { s with sockaddr :=
    { sin_family := s.family, sin_port := htons port, sin_addr := INADDR_BROADCAST } }
  sendto len sendcompletebuffer outs s1

/-- Outcome of one OS recv(2) call: SOCKET_ERROR with the errno the code
will read, or success delivering the given bytes (written at
data+receivedsize; the return value is their count). -/
inductive RecvOutcome where
  | err (lasterror : Int)
  | ok (bytes : List Nat)
deriving DecidableEq, Repr

/-- Result of the receive loop: done with the returned int, the bytes
accumulated in the caller buffer and the number of 50ms backoff sleeps
performed, or spin when the outcome oracle was exhausted while the loop
was still going (the code would keep calling recv). -/
inductive RecvFinal where
  | done (ret : Int) (acc : List Nat) (sleeps : Nat)
  | spin (acc : List Nat) (sleeps : Nat)
deriving DecidableEq, Repr

/-- The while loop of Socket::receive(data, buffersize, minpacketsize).
acc is the byte content written so far (receivedsize = acc.length).  The
loop guard is receivedsize <= minpacketsize and receivedsize < buffersize;
a would-block errno sleeps and retries, any other SOCKET_ERROR returns the
raw status; after a successful read the loop breaks as soon as
receivedsize >= minpacketsize and returns receivedsize. -/
def receiveLoop (buffersize minpacketsize : Nat) :
    List RecvOutcome → List Nat → Nat → RecvFinal
  | [], acc, sleeps =>
    if acc.length ≤ minpacketsize ∧ acc.length < buffersize then RecvFinal.spin acc sleeps
    else RecvFinal.done ((acc.length : Int)) acc sleeps
  | RecvOutcome.err lasterror :: rest, acc, sleeps =>
    if acc.length ≤ minpacketsize ∧ acc.length < buffersize then
      if lasterror = EAGAIN then receiveLoop buffersize minpacketsize rest acc (sleeps + 1)
      else RecvFinal.done SOCKET_ERROR acc sleeps
    else RecvFinal.done ((acc.length : Int)) acc sleeps
  | RecvOutcome.ok bytes :: rest, acc, sleeps =>
    if acc.length ≤ minpacketsize ∧ acc.length < buffersize then
      if minpacketsize ≤ (acc ++ bytes).length then
        RecvFinal.done (((acc ++ bytes).length : Int)) (acc ++ bytes) sleeps
      else receiveLoop buffersize minpacketsize rest (acc ++ bytes) sleeps
    else RecvFinal.done ((acc.length : Int)) acc sleeps

/-- Socket::receive(data, buffersize, minpacketsize): validity check, then
the accumulation loop from empty. -/
def receive (buffersize minpacketsize : Nat) (outs : List RecvOutcome)
    (sdValid : Bool) : RecvFinal :=
  if sdValid = false then RecvFinal.done 0 [] 0
  else receiveLoop buffersize minpacketsize outs [] 0

/-- The OS guarantee that each successful recv returns at most the length
the code requested, which at accumulated size got is buffersize - got. -/
def RecvValid (buffersize : Nat) : Nat → List RecvOutcome → Bool
  | _, [] => true
  | got, RecvOutcome.err _ :: rest => RecvValid buffersize got rest
  | got, RecvOutcome.ok bytes :: rest =>
    decide (bytes.length ≤ buffersize - got) && RecvValid buffersize (got + bytes.length) rest

/-- Bytes accumulated in a receive result. -/
def finalAcc : RecvFinal → List Nat
  | RecvFinal.done _ acc _ => acc
  | RecvFinal.spin acc _ => acc

/-- Whether the receive loop finished (returned to the caller). -/
def isDone : RecvFinal → Bool
  | RecvFinal.done _ _ _ => true
  | RecvFinal.spin _ _ => false

/-- A recv outcome that makes the loop return an error: SOCKET_ERROR with
an errno other than the would-block code. -/
def isFatal : RecvOutcome → Bool
  | RecvOutcome.err e => e != EAGAIN
  | RecvOutcome.ok _ => false

/-- Total bytes delivered by the successful reads of an outcome list. -/
def totalBytes : List RecvOutcome → Nat
  | [] => 0
  | RecvOutcome.err _ :: rest => totalBytes rest
  | RecvOutcome.ok bytes :: rest => bytes.length + totalBytes rest

/-- n consecutive zero-byte reads, as an orderly peer shutdown produces. -/
def zeroReads (n : Nat) : List RecvOutcome := List.replicate n (RecvOutcome.ok [])

/-- The receive loop never terminates on zero-byte reads: however many the
peer supplies, the loop is still running, has accumulated nothing and has
never slept. -/
def spinsForever (buffersize minpacketsize : Nat) : Prop :=
  ∀ n, receiveLoop buffersize minpacketsize (zeroReads n) [] 0 = RecvFinal.spin [] 0

/-- Socket::receive(std::string and data, minpacketsize): allocates a
zero-filled buffer of minpacketsize + 1 bytes, runs the sized receive with
buffersize = minpacketsize = minpacketsize, then assigns the buffer to the
string through the char pointer, which keeps only the bytes before the
first NUL.  none models the loop never returning. -/
def receiveString (minpacketsize : Nat) (outs : List RecvOutcome) (sdValid : Bool)
    (data : List Nat) : Option (Int × List Nat) :=
  if sdValid = false then some (0, data)
  else
    match receiveLoop minpacketsize minpacketsize outs [] 0 with
    | RecvFinal.done ret acc _ => some (ret, acc.takeWhile (fun b => b != 0))
    | RecvFinal.spin _ _ => none

/-- A sample connected-state Connection used by concrete witnesses. -/
def sampleValid : SState :=
  { sd := 3, family := 2, domain := 2, sockType := 1, protocol := 6,
    sockaddr := zeroSockAddr, usageCount := 1, wsaCleanupCalls := 0, osCloseCalls := 0 }

/-- A sample freshly constructed Connection (no handle yet). -/
def sampleFresh : SState :=
  { sd := INVALID_SOCKET, family := 2, domain := 2, sockType := 1, protocol := 6,
    sockaddr := zeroSockAddr, usageCount := 0, wsaCleanupCalls := 0, osCloseCalls := 0 }

/-! ### Lemmas about the receive loop -/

/-- Once the accumulated size has reached buffersize, the loop returns it
at once, consuming no further recv outcome. -/
theorem receiveLoop_at_capacity (buffersize minpacketsize : Nat)
    (outs : List RecvOutcome) (acc : List Nat) (sleeps : Nat)
    (h : buffersize ≤ acc.length) :
    receiveLoop buffersize minpacketsize outs acc sleeps =
      RecvFinal.done ((acc.length : Int)) acc sleeps := by
  have hg : ¬(acc.length ≤ minpacketsize ∧ acc.length < buffersize) := by omega
  cases outs with
  | nil => simp [receiveLoop, hg]
  | cons o rest => cases o <;> simp [receiveLoop, hg]

/-- Under the OS recv guarantee, the accumulated byte count never exceeds
buffersize, whether the loop has finished or is still running. -/
theorem receiveLoop_len_le (buffersize minpacketsize : Nat) :
    ∀ (outs : List RecvOutcome) (acc : List Nat) (sleeps : Nat),
      acc.length ≤ buffersize → RecvValid buffersize acc.length outs = true →
      (finalAcc (receiveLoop buffersize minpacketsize outs acc sleeps)).length ≤ buffersize := by
  intro outs
  induction outs with
  | nil =>
    intro acc sleeps h _
    by_cases hg : acc.length ≤ minpacketsize ∧ acc.length < buffersize <;>
      simp [receiveLoop, hg, finalAcc, h]
  | cons o rest ih =>
    intro acc sleeps h hv
    cases o with
    | err e =>
      have hv' : RecvValid buffersize acc.length rest = true := by
        simpa [RecvValid] using hv
      by_cases hg : acc.length ≤ minpacketsize ∧ acc.length < buffersize
      · by_cases he : e = EAGAIN
        · simp only [receiveLoop, if_pos hg, if_pos he]
          exact ih acc (sleeps + 1) h hv'
        · simp [receiveLoop, hg, he, finalAcc, h]
      · simp [receiveLoop, hg, finalAcc, h]
    | ok bytes =>
      have hv2 : bytes.length ≤ buffersize - acc.length ∧
          RecvValid buffersize (acc.length + bytes.length) rest = true := by
        simpa [RecvValid] using hv
      obtain ⟨hb1, hv'⟩ := hv2
      by_cases hg : acc.length ≤ minpacketsize ∧ acc.length < buffersize
      · have hlen : (acc ++ bytes).length ≤ buffersize := by
          simp only [List.length_append]; omega
        by_cases hm : minpacketsize ≤ acc.length + bytes.length
        · simp [receiveLoop, hg, hm, finalAcc]
          omega
        · simp only [receiveLoop, if_pos hg]
          rw [if_neg (by simpa [List.length_append] using hm)]
          exact ih (acc ++ bytes) sleeps hlen
            (by simpa [List.length_append] using hv')
      · simp [receiveLoop, hg, finalAcc, h]

/-- Every finished receive either returns the raw SOCKET_ERROR status or
returns exactly the number of bytes it accumulated. -/
theorem receiveLoop_done_ret (buffersize minpacketsize : Nat) :
    ∀ (outs : List RecvOutcome) (acc : List Nat) (sleeps : Nat) (ret : Int)
      (a : List Nat) (sl : Nat),
      receiveLoop buffersize minpacketsize outs acc sleeps = RecvFinal.done ret a sl →
      ret = SOCKET_ERROR ∨ ret = ((a.length : Int)) := by
  intro outs
  induction outs with
  | nil =>
    intro acc sleeps ret a sl h
    by_cases hg : acc.length ≤ minpacketsize ∧ acc.length < buffersize <;>
      simp [receiveLoop, hg] at h
    obtain ⟨h1, h2, _⟩ := h
    subst h1; subst h2; right; rfl
  | cons o rest ih =>
    intro acc sleeps ret a sl h
    cases o with
    | err e =>
      by_cases hg : acc.length ≤ minpacketsize ∧ acc.length < buffersize
      · by_cases he : e = EAGAIN
        · simp only [receiveLoop, if_pos hg, if_pos he] at h
          exact ih acc (sleeps + 1) ret a sl h
        · simp [receiveLoop, hg, he] at h
          left; exact h.1.symm
      · simp [receiveLoop, hg] at h
        obtain ⟨h1, h2, _⟩ := h
        subst h1; subst h2; right; rfl
    | ok bytes =>
      by_cases hg : acc.length ≤ minpacketsize ∧ acc.length < buffersize
      · by_cases hm : minpacketsize ≤ (acc ++ bytes).length
        · simp only [receiveLoop, if_pos hg, if_pos hm, RecvFinal.done.injEq] at h
          obtain ⟨h1, h2, _⟩ := h
          subst h2; right
          rw [← h1]
        · simp only [receiveLoop, if_pos hg, if_neg hm] at h
          exact ih (acc ++ bytes) sleeps ret a sl h
      · simp [receiveLoop, hg] at h
        obtain ⟨h1, h2, _⟩ := h
        subst h1; subst h2; right; rfl

/-- Claim C1: for every call receive(buffer, capacity, minimumSize) and
every OS-valid sequence of recv outcomes, the accumulated byte count never
exceeds the capacity; every non-negative return value is at most the
capacity; and whenever the accumulated size has reached the capacity (in
particular under minimumSize at least capacity, where the capacity is the
binding bound) the loop stops at once, returning the accumulated count and
consuming no further recv call. -/
theorem receive_capacity_ceiling (buffersize minpacketsize : Nat)
    (outs : List RecvOutcome) (hv : RecvValid buffersize 0 outs = true) :
    (finalAcc (receiveLoop buffersize minpacketsize outs [] 0)).length ≤ buffersize
    ∧ (∀ ret a sl,
        receiveLoop buffersize minpacketsize outs [] 0 = RecvFinal.done ret a sl →
        0 ≤ ret → ret ≤ (buffersize : Int))
    ∧ (buffersize ≤ minpacketsize → ∀ acc sleeps, buffersize ≤ acc.length →
        receiveLoop buffersize minpacketsize outs acc sleeps =
          RecvFinal.done ((acc.length : Int)) acc sleeps) := by
  have hlen := receiveLoop_len_le buffersize minpacketsize outs [] 0 (by simp) (by simpa using hv)
  refine ⟨hlen, ?_, ?_⟩
  · intro ret a sl h hret
    rcases receiveLoop_done_ret buffersize minpacketsize outs [] 0 ret a sl h with h1 | h1
    · exfalso; rw [h1] at hret; exact absurd hret (by decide)
    · rw [h] at hlen
      simp only [finalAcc] at hlen
      rw [h1]
      exact Int.ofNat_le.mpr hlen
  · intro _ acc sleeps hacc
    exact receiveLoop_at_capacity buffersize minpacketsize outs acc sleeps hacc

/-- Witness for claim C1 at capacity 2, minimum 5, two one-byte reads. -/
theorem receive_capacity_ceiling_w :
    (finalAcc (receiveLoop 2 5 [RecvOutcome.ok [7], RecvOutcome.ok [9]] [] 0)).length ≤ 2 :=
  (receive_capacity_ceiling 2 5 [RecvOutcome.ok [7], RecvOutcome.ok [9]] (by decide)).1

/-- Claim C8: with minimumSize zero, receive returns right after the first
successful OS read with that number of bytes, zero included; the remaining
outcomes are never consulted, so the loop does not wait for capacity. -/
theorem receive_min_zero (buffersize : Nat) (bytes : List Nat)
    (rest : List RecvOutcome) (h : 0 < buffersize) :
    receive buffersize 0 (RecvOutcome.ok bytes :: rest) true =
      RecvFinal.done ((bytes.length : Int)) bytes 0 := by
  simp [receive, receiveLoop, h]

/-- Witness for claim C8: capacity 4, an immediate zero-byte read, with a
pending error outcome that is never reached. -/
theorem receive_min_zero_w :
    receive 4 0 (RecvOutcome.ok [] :: [RecvOutcome.err 5]) true =
      RecvFinal.done ((0 : Int)) [] 0 :=
  receive_min_zero 4 [] [RecvOutcome.err 5] (by decide)

/-- On zero-byte reads the loop makes no progress, never sleeps, and keeps
calling recv: however many zero reads are supplied, it is still running. -/
theorem receiveLoop_zeroReads (buffersize minpacketsize : Nat)
    (hm : 0 < minpacketsize) (hb : 0 < buffersize) :
    ∀ n, receiveLoop buffersize minpacketsize (zeroReads n) [] 0 = RecvFinal.spin [] 0 := by
  intro n
  induction n with
  | zero => simp [zeroReads, receiveLoop, hb]
  | succ n ih =>
    have h0 : ¬ minpacketsize ≤ 0 := by omega
    simpa [zeroReads, List.replicate_succ, receiveLoop, hb, h0] using ih

/-- Claim C9 counterexample: with capacity 8 and minimum 4, an orderly
peer shutdown (every recv returning 0) leaves the accumulation loop
running forever, with no accumulated byte and no backoff sleep. -/
theorem receive_zero_read_spins_cex : spinsForever 8 4 := by
  intro n
  exact receiveLoop_zeroReads 8 4 (by decide) (by decide) n

/-- The loop does finish whenever the outcome sequence contains a
non-transient error, or its successful reads deliver at least minimumSize
bytes in total. -/
theorem receiveLoop_done_of (buffersize minpacketsize : Nat) :
    ∀ (outs : List RecvOutcome) (acc : List Nat) (sleeps : Nat),
      (outs.any isFatal = true ∨
        (minpacketsize ≤ acc.length + totalBytes outs ∧ acc.length < minpacketsize)) →
      isDone (receiveLoop buffersize minpacketsize outs acc sleeps) = true := by
  intro outs
  induction outs with
  | nil =>
    intro acc sleeps h
    rcases h with h | h
    · simp at h
    · simp [totalBytes] at h; omega
  | cons o rest ih =>
    intro acc sleeps h
    cases o with
    | err e =>
      by_cases hg : acc.length ≤ minpacketsize ∧ acc.length < buffersize
      · by_cases he : e = EAGAIN
        · simp only [receiveLoop, if_pos hg, if_pos he]
          apply ih acc (sleeps + 1)
          rcases h with h | h
          · left; simpa [isFatal, he] using h
          · right; simpa [totalBytes] using h
        · simp [receiveLoop, hg, he, isDone]
      · cases rest <;> simp [receiveLoop, hg, isDone]
    | ok bytes =>
      by_cases hg : acc.length ≤ minpacketsize ∧ acc.length < buffersize
      · by_cases hm : minpacketsize ≤ (acc ++ bytes).length
        · simp only [receiveLoop, if_pos hg, if_pos hm, isDone]
        · simp only [receiveLoop, if_pos hg, if_neg hm]
          apply ih (acc ++ bytes) sleeps
          rcases h with h | h
          · left; simpa [isFatal] using h
          · right
            simp only [List.length_append] at hm ⊢
            simp only [totalBytes] at h
            omega
      · cases rest <;> simp [receiveLoop, hg, isDone]

/-- Claim C9 (amended): with a positive minimumSize the accumulation loop
terminates for every outcome sequence that contains a non-transient error
or delivers at least minimumSize bytes; but it does NOT terminate for
every possible sequence: when the peer has shut down and every recv
returns 0 before minimumSize bytes have accumulated, the loop retries the
zero-byte read forever without any backoff sleep. -/
theorem receive_termination_amended (buffersize minpacketsize : Nat)
    (hm : 0 < minpacketsize) :
    (∀ outs : List RecvOutcome,
        (outs.any isFatal = true ∨ minpacketsize ≤ totalBytes outs) →
        isDone (receiveLoop buffersize minpacketsize outs [] 0) = true)
    ∧ (0 < buffersize → spinsForever buffersize minpacketsize) := by
  constructor
  · intro outs h
    apply receiveLoop_done_of buffersize minpacketsize outs [] 0
    rcases h with h | h
    · exact Or.inl h
    · exact Or.inr ⟨by simpa using h, by simpa using hm⟩
  · intro hb n
    exact receiveLoop_zeroReads buffersize minpacketsize hm hb n

/-- Witness for the amended claim C9: a four-byte read meets minimum 4 and
the loop finishes. -/
theorem receive_termination_amended_w :
    isDone (receiveLoop 8 4 [RecvOutcome.ok [1, 2, 3, 4]] [] 0) = true :=
  (receive_termination_amended 8 4 (by decide)).1 [RecvOutcome.ok [1, 2, 3, 4]]
    (Or.inr (by decide))

/-! ### Round trip through send and the string receive overload -/

/-- When the successful reads drain, in order, exactly enough bytes to
meet minimumSize (with buffersize = minimumSize, as the string overload
calls it), the loop finishes with precisely the concatenation of the
delivered chunks. -/
theorem receiveLoop_exact (minpacketsize : Nat) :
    ∀ (chunks : List (List Nat)) (acc : List Nat) (sleeps : Nat),
      acc.length + chunks.flatten.length = minpacketsize →
      receiveLoop minpacketsize minpacketsize (chunks.map RecvOutcome.ok) acc sleeps =
        RecvFinal.done ((minpacketsize : Int)) (acc ++ chunks.flatten) sleeps := by
  intro chunks
  induction chunks with
  | nil =>
    intro acc sleeps h
    simp only [List.flatten_nil, List.length_nil] at h
    have hg : ¬(acc.length ≤ minpacketsize ∧ acc.length < minpacketsize) := by omega
    simp [receiveLoop, hg]
    omega
  | cons c rest ih =>
    intro acc sleeps h
    have hlen : acc.length + (c.length + rest.flatten.length) = minpacketsize := by
      simpa [List.flatten_cons, List.length_append] using h
    by_cases hlt : acc.length < minpacketsize
    · have hg : acc.length ≤ minpacketsize ∧ acc.length < minpacketsize :=
        ⟨Nat.le_of_lt hlt, hlt⟩
      by_cases hm : minpacketsize ≤ (acc ++ c).length
      · have hr : rest.flatten.length = 0 := by
          simp only [List.length_append] at hm; omega
        have hrj : rest.flatten = [] := List.length_eq_zero.mp hr
        simp only [List.map_cons, receiveLoop, if_pos hg, if_pos hm, List.flatten_cons,
          hrj, List.append_nil, RecvFinal.done.injEq]
        refine ⟨?_, trivial, trivial⟩
        simp only [List.length_append]
        omega
      · simp only [List.map_cons, receiveLoop, if_pos hg, if_neg hm]
        rw [ih (acc ++ c) sleeps (by simp only [List.length_append]; omega)]
        simp [List.flatten_cons, List.append_assoc]
    · have hacc : acc.length = minpacketsize := by omega
      have hc : c = [] := List.length_eq_zero.mp (by omega)
      have hrj : rest.flatten = [] := List.length_eq_zero.mp (by omega)
      have hg : ¬(acc.length ≤ minpacketsize ∧ acc.length < minpacketsize) := by omega
      simp [receiveLoop, hg, List.flatten_cons, hc, hrj, hacc]

/-- A byte list with no zero byte passes the C-string truncation intact. -/
theorem takeWhile_ne_zero :
    ∀ (l : List Nat), (∀ b ∈ l, b ≠ 0) → l.takeWhile (fun b => b != 0) = l := by
  intro l
  induction l with
  | nil => intro _; rfl
  | cons b t ih =>
    intro h
    have hb : (b != 0) = true := by
      have := h b (List.mem_cons_self b t)
      simpa using this
    simp only [List.takeWhile_cons, hb, if_true]
    rw [ih (fun x hx => h x (List.mem_cons_of_mem b hx))]

/-- Claim C4 counterexample: the payload 65,0,66 is fully accepted by
send and fully delivered to the receiving loop with matching minimumSize 3,
yet the string produced by the receive overload is just 65: the assignment
of the char buffer to the string stops at the first zero byte, so payloads
containing zero bytes do not survive the round trip. -/
theorem roundtrip_zero_byte_cex :
    (send 0 [SendOutcome.ok 3] sampleValid).1 = some 3
    ∧ receiveString 3 [RecvOutcome.ok [65, 0, 66]] true [] = some (3, [65])
    ∧ receiveString 3 [RecvOutcome.ok [65, 0, 66]] true [] ≠ some ((3 : Int), [65, 0, 66]) := by
  decide

/-- Claim C4 (amended): a round trip is byte-identical for payloads that
contain no zero byte: when the OS accepts the whole payload in the send
call and the connected peer receives it through the overload with matching
minimumSize, with the successful reads delivering the payload in order,
the resulting string equals the payload and the returned count is its
length.  A zero byte in the payload instead truncates the received string
at the first zero. -/
theorem roundtrip_amended (payload : List Nat) (chunks : List (List Nat))
    (s : SState) (sel : Int) (data : List Nat)
    (hjoin : chunks.flatten = payload) (hnz : ∀ b ∈ payload, b ≠ 0)
    (hval : is_valid s = true) (hsel : 0 ≤ sel) :
    (send sel [SendOutcome.ok payload.length] s).1 = some ((payload.length : Int))
    ∧ receiveString payload.length (chunks.map RecvOutcome.ok) true data =
        some ((payload.length : Int), payload) := by
  constructor
  · have hns : ¬ sel < 0 := Int.not_lt.mpr hsel
    have hne : ¬ ((payload.length : Int) = SOCKET_ERROR) := by
      simp only [SOCKET_ERROR]
      omega
    simp [send, hval, hns, sendLoop, hne]
  · have hx := receiveLoop_exact payload.length chunks [] 0 (by simp [hjoin])
    rw [List.nil_append, hjoin] at hx
    simp [receiveString, hx, takeWhile_ne_zero payload hnz]

/-- Witness for the amended claim C4: payload "Hi" (72, 105) sent whole
and delivered in two chunks. -/
theorem roundtrip_amended_w :
    receiveString 2 [RecvOutcome.ok [72], RecvOutcome.ok [105]] true [] =
      some ((2 : Int), [72, 105]) := by
  have h := (roundtrip_amended [72, 105] [[72], [105]] sampleValid 0 []
    (by decide) (by decide) (by decide) (by decide)).2
  simpa using h

/-! ### The send path -/

/-- While errno is the would-block code the retry loop keeps calling the
OS send: an all-would-block oracle never produces a result. -/
theorem sendLoop_all_eagain :
    ∀ n, sendLoop (List.replicate n (SendOutcome.err EAGAIN)) = none := by
  intro n
  induction n with
  | zero => rfl
  | succ n ih => simpa [List.replicate_succ, sendLoop] using ih

/-- Any number of would-block retries followed by a non-transient error
ends the retry loop with the raw SOCKET_ERROR status. -/
theorem sendLoop_eagain_then_err (n : Nat) (e : Int) (he : e ≠ EAGAIN) :
    sendLoop (List.replicate n (SendOutcome.err EAGAIN) ++ [SendOutcome.err e]) =
      some SOCKET_ERROR := by
  induction n with
  | zero => simp [sendLoop, he]
  | succ n ih => simpa [List.replicate_succ, sendLoop] using ih

/-- Claim C2: on a valid handle (with the readiness poll not failing), a
non-transient OS write error makes send return the raw SOCKET_ERROR
status and set the descriptor to INVALID_SOCKET while every other state
component (the usage counter, the cleanup and close counters, the peer
address) is untouched, so no platform resource is released; and while the
OS keeps reporting the would-block condition the write is retried
indefinitely, never returning. -/
theorem send_error_poisons (selectResult : Int) (n : Nat) (e : Int) (s : SState)
    (hval : is_valid s = true) (hsel : 0 ≤ selectResult) (he : e ≠ EAGAIN) :
    send selectResult (List.replicate n (SendOutcome.err EAGAIN) ++ [SendOutcome.err e]) s
      = (some SOCKET_ERROR, { s with sd := INVALID_SOCKET })
    ∧ (send selectResult (List.replicate n (SendOutcome.err EAGAIN)) s).1 = none := by
  have hns : ¬ selectResult < 0 := by omega
  constructor
  · simp [send, hval, hns, sendLoop_eagain_then_err n e he]
  · simp [send, hval, hns, sendLoop_all_eagain n]

/-- Witness for claim C2: two would-block retries then errno 32 (EPIPE)
poison the sample connected socket. -/
theorem send_error_poisons_w :
    send 0 (List.replicate 2 (SendOutcome.err EAGAIN) ++ [SendOutcome.err 32]) sampleValid
      = (some SOCKET_ERROR, { sampleValid with sd := INVALID_SOCKET }) :=
  (send_error_poisons 0 2 32 sampleValid (by decide) (by decide) (by decide)).1

/-! ### Lifecycle: osInit, osCleanup, create, close -/

/-- osInit reports success exactly when startup and version check pass. -/
theorem osInit_fst (su vo : Bool) (s : SState) : (osInit su vo s).1 = (su && vo) := by
  cases su <;> cases vo <;> rfl

/-- Whatever osInit reports, its only state effect is the increment. -/
theorem osInit_state (su vo : Bool) (s : SState) :
    (osInit su vo s).2 = { s with usageCount := s.usageCount + 1 } := by
  cases su <;> cases vo <;> rfl

/-- osCleanup leaves the descriptor alone. -/
theorem osCleanup_sd (s : SState) : (osCleanup s).sd = s.sd := by
  simp only [osCleanup]
  split_ifs <;> rfl

/-- osCleanup leaves the peer address alone. -/
theorem osCleanup_sockaddr (s : SState) : (osCleanup s).sockaddr = s.sockaddr := by
  simp only [osCleanup]
  split_ifs <;> rfl

/-- osCleanup decrements the usage counter by one. -/
theorem osCleanup_usage (s : SState) : (osCleanup s).usageCount = s.usageCount - 1 := by
  simp only [osCleanup]
  split_ifs <;> rfl

/-- osCleanup performs no descriptor close. -/
theorem osCleanup_osClose (s : SState) : (osCleanup s).osCloseCalls = s.osCloseCalls := by
  simp only [osCleanup]
  split_ifs <;> rfl

/-- From counter value one, osCleanup reaches zero and tears the
subsystem down. -/
theorem osCleanup_wsa_of_one (s : SState) (h : s.usageCount = 1) :
    (osCleanup s).wsaCleanupCalls = s.wsaCleanupCalls + 1 := by
  simp [osCleanup, h]

/-- close never writes the peer address. -/
theorem close_sockaddr (s : SState) : (close s).2.sockaddr = s.sockaddr := by
  by_cases h : is_valid s = true
  · simp [close, h, osCleanup_sockaddr]
  · simp [close, h]

/-- create never writes the peer address. -/
theorem create_sockaddr (su vo : Bool) (fd : Int) (s : SState) :
    (create su vo fd s).2.sockaddr = s.sockaddr := by
  have hc := close_sockaddr s
  simp only [create]
  by_cases h : is_valid s = true <;>
    simp only [h, if_pos, if_neg, Bool.true_eq_false, Bool.false_eq_true, if_false,
      if_true, osInit_state] <;>
    split_ifs <;> simp_all

/-- A successful create stored the OS descriptor into _sd. -/
theorem create_sd_of_true (su vo : Bool) (fd : Int) (s : SState)
    (h : (create su vo fd s).1 = true) : (create su vo fd s).2.sd = fd := by
  simp only [create] at h ⊢
  split_ifs at h ⊢ <;> simp_all

/-- On a state with no open handle, create is the osInit increment plus,
when osInit succeeds, storing the OS descriptor; it succeeds exactly when
osInit succeeds and the descriptor is not INVALID_SOCKET. -/
theorem create_fresh_eq (su vo : Bool) (fd : Int) (s : SState) (h : is_valid s = false) :
    create su vo fd s =
      ((su && vo && (fd != INVALID_SOCKET) : Bool),
        if (su && vo) = true then { s with sd := fd, usageCount := s.usageCount + 1 }
        else { s with usageCount := s.usageCount + 1 }) := by
  cases su <;> cases vo <;> by_cases hfd : fd = INVALID_SOCKET <;>
    simp [create, osInit, h, hfd]

/-- Claim C3 counterexample: starting from a fresh Connection with the
counter at zero, a create() whose subsystem startup fails returns failure
and yet leaves the counter incremented to one, so the counter IS
incremented by a create() that fails. -/
theorem create_failed_increments_cex :
    (create false true 5 sampleFresh).1 = false
    ∧ (create false true 5 sampleFresh).2.usageCount = sampleFresh.usageCount + 1
    ∧ sampleFresh.usageCount = 0 := by
  decide

/-- Claim C3 (amended): on the platform requiring subsystem startup, the
counter is incremented by EVERY create() on a Connection with no open
handle, the failing ones included (the increment precedes the startup
check and is not rolled back when the startup, the version check or the
socket allocation fails); it is decremented exactly by every close() of an
open Connection, while close() of a closed one changes nothing; hence a
successful create() followed immediately by close() leaves the handle
invalid and restores the counter to its value before the create(). -/
theorem create_close_counter_amended (startupOk versionOk : Bool) (fd : Int)
    (s : SState) (h : is_valid s = false) :
    (create startupOk versionOk fd s).2.usageCount = s.usageCount + 1
    ∧ ((create startupOk versionOk fd s).1 = true →
        (close (create startupOk versionOk fd s).2).1 = true
        ∧ (close (create startupOk versionOk fd s).2).2.sd = INVALID_SOCKET
        ∧ (close (create startupOk versionOk fd s).2).2.usageCount = s.usageCount)
    ∧ (∀ s2 : SState, is_valid s2 = true → (close s2).2.usageCount = s2.usageCount - 1)
    ∧ (∀ s2 : SState, is_valid s2 = false → close s2 = (false, s2)) := by
  rw [create_fresh_eq startupOk versionOk fd s h]
  refine ⟨?_, ?_, ?_, ?_⟩
  · split_ifs <;> rfl
  · intro hc
    simp only [Bool.and_eq_true, bne_iff_ne] at hc
    obtain ⟨⟨hsu, hvo⟩, hfd⟩ := hc
    have hv : is_valid { s with sd := fd, usageCount := s.usageCount + 1 } = true := by
      simp [is_valid, bne_iff_ne, hfd]
    simp [hsu, hvo, close, hv, osCleanup_sd, osCleanup_usage]
  · intro s2 h2
    simp [close, h2, osCleanup_usage]
  · intro s2 h2
    simp [close, h2]

/-- Witness for the amended claim C3: a successful create() on the fresh
sample raises the counter from zero to one. -/
theorem create_close_counter_amended_w :
    (create true true 5 sampleFresh).2.usageCount = sampleFresh.usageCount + 1 :=
  (create_close_counter_amended true true 5 sampleFresh (by decide)).1

/-! ### Hostname resolution -/

/-- Claim C5: setHostname dispatches on the first character of the host:
when it is alphabetic, name resolution runs, a failed resolution returns
failure with the whole Connection state (the peer-address buffer included)
exactly as before the call, and a successful one writes the first resolved
address into the sin_addr field; when it is not alphabetic, the string is
handed to the numeric parser and its result is stored unconditionally,
with no validation and unconditional success. -/
theorem setHostname_spec (gethostbyname : List Nat → Option Nat)
    (inet_addr : List Nat → Nat) (host : List Nat) (s : SState) :
    (isalphaByte (firstByte host) = true → gethostbyname host = none →
        setHostname gethostbyname inet_addr host s = (false, s))
    ∧ (isalphaByte (firstByte host) = true → ∀ addr, gethostbyname host = some addr →
        setHostname gethostbyname inet_addr host s =
          (true, { s with sockaddr := { s.sockaddr with sin_addr := addr } }))
    ∧ (isalphaByte (firstByte host) = false →
        setHostname gethostbyname inet_addr host s =
          (true, { s with sockaddr := { s.sockaddr with sin_addr := inet_addr host } })) := by
  refine ⟨?_, ?_, ?_⟩
  · intro ha hr
    simp [setHostname, ha, hr]
  · intro ha addr hr
    simp [setHostname, ha, hr]
  · intro ha
    simp [setHostname, ha]

/-- Witness for claim C5: the unresolvable symbolic host "a" (byte 97)
fails and leaves the sample state untouched. -/
theorem setHostname_spec_w :
    setHostname (fun _ => none) (fun _ => 0) [97] sampleValid = (false, sampleValid) :=
  (setHostname_spec (fun _ => none) (fun _ => 0) [97] sampleValid).1 (by decide) rfl

/-! ### reconnect -/

/-- Claim C6: reconnect on a valid handle returns success at once with the
whole state (the descriptor identity included) unchanged; on an invalid
handle it re-creates the descriptor through create() and issues the OS
connect on the peer address already stored, without any hostname
resolution, failing whenever create fails or the OS connect reports
SOCKET_ERROR. -/
theorem reconnect_spec (startupOk versionOk : Bool) (fd : Int)
    (connectOS : SockAddrIn → Int) (s : SState) :
    (is_valid s = true → reconnect startupOk versionOk fd connectOS s = (true, s))
    ∧ (is_valid s = false →
        ((create startupOk versionOk fd s).1 = false →
          reconnect startupOk versionOk fd connectOS s =
            (false, (create startupOk versionOk fd s).2))
        ∧ ((create startupOk versionOk fd s).1 = true →
          (create startupOk versionOk fd s).2.sockaddr = s.sockaddr
          ∧ (create startupOk versionOk fd s).2.sd = fd
          ∧ reconnect startupOk versionOk fd connectOS s =
              ((if connectOS s.sockaddr = SOCKET_ERROR then false else true),
                (create startupOk versionOk fd s).2))) := by
  constructor
  · intro h
    have hv : s.sd ≠ INVALID_SOCKET := by simpa [is_valid, bne_iff_ne] using h
    simp [reconnect, hv]
  · intro h
    have heq : s.sd = INVALID_SOCKET := by
      by_contra hne
      simp [is_valid, bne_iff_ne, hne] at h
    have hv : ¬ (s.sd ≠ INVALID_SOCKET) := by simp [heq]
    constructor
    · intro hc
      simp [reconnect, hv, hc]
    · intro hc
      have hsock := create_sockaddr startupOk versionOk fd s
      refine ⟨hsock, create_sd_of_true startupOk versionOk fd s hc, ?_⟩
      simp only [reconnect, hv, if_neg hv, hc, Bool.true_eq_false, if_false, hsock]
      split_ifs <;> rfl

/-- Witness for claim C6: reconnect on the connected sample is the
identity success. -/
theorem reconnect_spec_w :
    reconnect true true 5 (fun _ => 0) sampleValid = (true, sampleValid) :=
  (reconnect_spec true true 5 (fun _ => 0) sampleValid).1 (by decide)

/-! ### Frame of the peer-address structure, and the sendto cleanup leak -/

/-- send never writes the peer address: every path changes at most the
descriptor. -/
theorem send_sockaddr (sel : Int) (outs : List SendOutcome) (s : SState) :
    (send sel outs s).2.sockaddr = s.sockaddr := by
  unfold send
  split_ifs <;> try rfl
  cases sendLoop outs with
  | none => rfl
  | some st => by_cases hst : st = SOCKET_ERROR <;> simp [hst]

/-- The sendto loop changes at most the counter fields through osCleanup:
the peer address, the descriptor and the close count are untouched. -/
theorem sendtoLoop_frame (size : Nat) (flag : Bool) :
    ∀ (outs : List Int) (sent : Int) (s : SState),
      (sendtoLoop size flag outs sent s).2.sockaddr = s.sockaddr
      ∧ (sendtoLoop size flag outs sent s).2.sd = s.sd
      ∧ (sendtoLoop size flag outs sent s).2.osCloseCalls = s.osCloseCalls := by
  intro outs
  induction outs with
  | nil => intro sent s; exact ⟨rfl, rfl, rfl⟩
  | cons i rest ih =>
    intro sent s
    by_cases hi : i ≤ 0
    · simp [sendtoLoop, hi, osCleanup_sockaddr, osCleanup_sd, osCleanup_osClose]
    · by_cases hc : sent + i < (size : Int) ∧ flag = true
      · simp only [sendtoLoop, if_neg hi, if_pos hc]
        exact ih (sent + i) s
      · simp [sendtoLoop, hi, hc]

/-- reconnect never writes the peer address. -/
theorem reconnect_sockaddr (su vo : Bool) (fd : Int) (cOS : SockAddrIn → Int)
    (s : SState) : (reconnect su vo fd cOS s).2.sockaddr = s.sockaddr := by
  simp only [reconnect]
  split_ifs <;> simp [create_sockaddr]

/-- setHostname writes at most the sin_addr field: family and port pass
through untouched. -/
theorem setHostname_keeps (g : List Nat → Option Nat) (i : List Nat → Nat)
    (host : List Nat) (s : SState) :
    (setHostname g i host s).2.sockaddr.sin_family = s.sockaddr.sin_family
    ∧ (setHostname g i host s).2.sockaddr.sin_port = s.sockaddr.sin_port := by
  unfold setHostname
  split_ifs with h
  · cases g host <;> simp
  · simp

/-- On a valid handle, connect stores the configured family and the
network-order port into the peer-address structure on every path, the
failing ones included. -/
theorem connect_writes_family_port (g : List Nat → Option Nat) (i : List Nat → Nat)
    (host : List Nat) (port : Nat) (cOS : SockAddrIn → Int) (s : SState)
    (h : is_valid s = true) :
    (connect g i host port cOS s).2.sockaddr.sin_family = s.family
    ∧ (connect g i host port cOS s).2.sockaddr.sin_port = htons port := by
  have hk := setHostname_keeps g i host
    { s with sockaddr := { s.sockaddr with sin_family := s.family, sin_port := htons port } }
  simp only [connect, h, Bool.true_eq_false, if_false]
  rcases hsh : setHostname g i host
    { s with sockaddr :=
        { s.sockaddr with sin_family := s.family, sin_port := htons port } } with ⟨b, s2⟩
  rw [hsh] at hk
  simp only at hk
  cases b
  · simpa using hk
  · simp only
    split_ifs <;> simpa using hk

/-- Claim C7 counterexample: on a connected sample whose peer address is
all zero, connect to port 1 through the numeric-host branch leaves the
peer-address structure changed (family and port were written by connect
itself), refuting that only setHostname, bind and broadcast operations
ever write it and that connect leaves it unchanged. -/
theorem connect_writes_peer_address_cex :
    (connect (fun _ => none) (fun _ => 0) [57] 1 (fun _ => 0) sampleValid).2.sockaddr
      ≠ sampleValid.sockaddr := by
  decide

/-- Claim C7 (amended): the peer-address structure is zeroed at
construction, and close, create, send, sendto and reconnect never write
it; but besides setHostname, bind and the broadcast operations, connect
also writes it: on a valid handle it stores the configured family and the
network-order port directly (and the resolved address through its internal
setHostname call), on every path including failing ones. -/
theorem peer_address_frame_amended (fam dom ty proto : Nat) (g0 s : SState)
    (su vo : Bool) (fd sel : Int) (souts : List SendOutcome) (size : Nat)
    (flag : Bool) (iouts : List Int) (cOS : SockAddrIn → Int)
    (gethostbyname : List Nat → Option Nat) (inet_addr : List Nat → Nat)
    (host : List Nat) (port : Nat) :
    (socketCtor fam dom ty proto g0).sockaddr = zeroSockAddr
    ∧ (close s).2.sockaddr = s.sockaddr
    ∧ (create su vo fd s).2.sockaddr = s.sockaddr
    ∧ (send sel souts s).2.sockaddr = s.sockaddr
    ∧ (sendto size flag iouts s).2.sockaddr = s.sockaddr
    ∧ (reconnect su vo fd cOS s).2.sockaddr = s.sockaddr
    ∧ (is_valid s = true →
        (connect gethostbyname inet_addr host port cOS s).2.sockaddr.sin_family = s.family
        ∧ (connect gethostbyname inet_addr host port cOS s).2.sockaddr.sin_port
            = htons port) := by
  refine ⟨rfl, close_sockaddr s, create_sockaddr su vo fd s, send_sockaddr sel souts s,
    (sendtoLoop_frame size flag iouts 0 s).1, reconnect_sockaddr su vo fd cOS s, ?_⟩
  intro h
  exact connect_writes_family_port gethostbyname inet_addr host port cOS s h

/-- Witness for the amended claim C7: connect on the connected sample
stores network-order port 5 into the peer-address structure. -/
theorem peer_address_frame_amended_w :
    (connect (fun _ => none) (fun _ => 0) [57] 5 (fun _ => 0) sampleValid).2.sockaddr.sin_port
      = htons 5 :=
  ((peer_address_frame_amended 2 2 1 6 sampleFresh sampleValid true true 3 0 [] 0 true []
      (fun _ => 0) (fun _ => none) (fun _ => 0) [57] 5).2.2.2.2.2.2 (by decide)).2

/-- Claim C10: when the first OS sendto of the connectionless send path
returns a non-positive result, Socket::sendto returns it raw and runs
osCleanup: the usage counter is decremented although the descriptor is
neither closed (the close count is unchanged) nor invalidated (the
descriptor is unchanged), and when the counter was one, WSACleanup tears
the subsystem down while the Connection is still open; BroadcastSendTo,
which calls this sendto, decrements the counter the same way. -/
theorem sendto_failure_cleanup (size : Nat) (flag : Bool) (i : Int) (outs : List Int)
    (port msglen : Nat) (s : SState) (hi : i ≤ 0) :
    (sendto size flag (i :: outs) s).1 = some i
    ∧ (sendto size flag (i :: outs) s).2.sd = s.sd
    ∧ (sendto size flag (i :: outs) s).2.osCloseCalls = s.osCloseCalls
    ∧ (sendto size flag (i :: outs) s).2.usageCount = s.usageCount - 1
    ∧ (s.usageCount = 1 →
        (sendto size flag (i :: outs) s).2.wsaCleanupCalls = s.wsaCleanupCalls + 1
        ∧ is_valid (sendto size flag (i :: outs) s).2 = is_valid s)
    ∧ (BroadcastSendTo flag port msglen (i :: outs) s).2.usageCount = s.usageCount - 1
    ∧ (BroadcastSendTo flag port msglen (i :: outs) s).2.sd = s.sd := by
  have hred : sendto size flag (i :: outs) s = (some i, osCleanup s) := by
    simp [sendto, sendtoLoop, hi]
  have hred2 : ∀ s1 : SState, sendto msglen flag (i :: outs) s1 = (some i, osCleanup s1) := by
    intro s1
    simp [sendto, sendtoLoop, hi]
  refine ⟨by rw [hred], by rw [hred]; exact osCleanup_sd s,
    by rw [hred]; exact osCleanup_osClose s, by rw [hred]; exact osCleanup_usage s,
    ?_, ?_, ?_⟩
  · intro h1
    refine ⟨by rw [hred]; exact osCleanup_wsa_of_one s h1, ?_⟩
    rw [hred]
    simp [is_valid, osCleanup_sd s]
  · simp only [BroadcastSendTo, hred2, osCleanup_usage]
  · simp only [BroadcastSendTo, hred2, osCleanup_sd]

/-- Witness for claim C10: a failing broadcast-style sendto on the sample
Connection (counter one, descriptor 3) returns the raw error. -/
theorem sendto_failure_cleanup_w :
    (sendto 10 true ((-1) :: []) sampleValid).1 = some (-1) :=
  (sendto_failure_cleanup 10 true (-1) [] 8866 10 sampleValid (by decide)).1

end NextPVRSocket
